import Mathlib

/-!
Shallow embedding of the hyphy-wasm-benchmark scripts:

* the statistics block shared by `scripts/run_benchmark.py` (lines 130-144)
  and `scripts/run_wasm_benchmark.py` (lines 177-191), and
* the aggregation / report logic of `scripts/aggregate_results.py`
  (`load_results`, `write_markdown` and its lookup tables and summary).

Elapsed times and means are modelled as exact rationals (Python floats are
abstracted to ℚ; the standard deviation, standard error and coefficient of
variation live in ℝ because of the square root).  Python dictionaries are
modelled as association lists with Python's insertion semantics (overwrite
in place when the key exists, append otherwise), and Python truthiness of a
possibly-missing float (`if x:`) is modelled explicitly: `None` and `0` are
falsy, everything else truthy.
-/

/-- One timed attempt, as appended to the `iterations` list by
`run_benchmark.py` lines 122-127: 1-based index, elapsed milliseconds and a
success flag (the exit-code / error detail fields play no role in the
statistics). -/
structure Iteration where
  iteration : Nat
  runtimeMs : ℚ
  success : Bool
deriving DecidableEq

/-- The list `successful_times = [it["runtimeMs"] for it in iterations if it["success"]]`
(`run_benchmark.py` line 130). -/
def successful_times (its : List Iteration) : List ℚ :=
  (its.filter (fun it => it.success)).map (fun it => it.runtimeMs)

/-- Python `statistics.mean`: the arithmetic mean of a (nonempty) list. -/
def pyMean (l : List ℚ) : ℚ := l.sum / l.length

/-- Python `min` over a list; the `[]` case returns 0 and is unreachable at
the single call site, which is guarded by nonemptiness. -/
def pyListMin : List ℚ → ℚ
  | [] => 0
  | x :: xs => xs.foldl min x

/-- Python `max` over a list; the `[]` case returns 0 and is unreachable at
the single call site, which is guarded by nonemptiness. -/
def pyListMax : List ℚ → ℚ
  | [] => 0
  | x :: xs => xs.foldl max x

/-- Python `statistics.median`: sort, take the middle element (odd length) or the
mean of the two middle elements (even length). -/
def pyMedian (l : List ℚ) : ℚ :=
  let s := List.insertionSort (· ≤ ·) l
  let n := l.length
  if n % 2 = 1 then s.getD (n / 2) 0
  else (s.getD (n / 2 - 1) 0 + s.getD (n / 2) 0) / 2

/-- The sample variance with the unbiased `n - 1` denominator, as used by
`statistics.stdev`. -/
def sampleVar (l : List ℚ) : ℚ :=
  ((l.map (fun x => (x - pyMean l) ^ 2)).sum) / ((l.length : ℚ) - 1)

/-- Python `statistics.stdev`: square root of the sample variance. -/
noncomputable def pyStdev (l : List ℚ) : ℝ := Real.sqrt (sampleVar l)

/-- The `stats` dictionary built by `run_benchmark.py` lines 132-144 (and
identically by `run_wasm_benchmark.py` lines 179-191): every key that the
code can leave unset is an `Option`. -/
structure StatisticsSummary where
  n : Nat
  mean : Option ℚ
  stdDev : Option ℝ
  min : Option ℚ
  max : Option ℚ
  median : Option ℚ
  standardError : Option ℝ
  cv : Option ℝ
  error : Option String

/-- The statistics block of `run_benchmark.py` `main` (lines 130-144),
byte-identical in `run_wasm_benchmark.py` (lines 177-191):
if any iteration succeeded, n / mean / stdDev (0 unless `n > 1`) / min /
max / median, then `standardError = stdDev / n ** 0.5` (guarded by `n > 0`,
which always holds here) and `cv = stdDev / mean * 100 if mean > 0 else 0`;
otherwise `{"n": 0, "mean": None, "error": "All iterations failed"}`. -/
noncomputable def compute_statistics (its : List Iteration) : StatisticsSummary :=
  if successful_times its = [] then
    { n := 0, mean := none, stdDev := none, min := none, max := none,
      median := none, standardError := none, cv := none,
      error := some "All iterations failed" }
  else
    { n := (successful_times its).length
      mean := some (pyMean (successful_times its))
      stdDev := some (if 1 < (successful_times its).length
        then pyStdev (successful_times its) else 0)
      min := some (pyListMin (successful_times its))
      max := some (pyListMax (successful_times its))
      median := some (pyMedian (successful_times its))
      standardError := some (if 0 < (successful_times its).length then
        (if 1 < (successful_times its).length then pyStdev (successful_times its) else 0) /
          Real.sqrt ((successful_times its).length : ℝ) else 0)
      cv := some (if 0 < pyMean (successful_times its) then
        (if 1 < (successful_times its).length then pyStdev (successful_times its) else 0) /
          (pyMean (successful_times its) : ℝ) * 100 else 0)
      error := none }

/-- The `str()` rendering of the JSON value found in a record's `cpu` field:
an integer, a string (the runner writes the sentinel `"all"`), or missing
(`str(r.get("cpu", "")) == ""`). -/
def pyStr : Option (Int ⊕ String) → String
  | none => ""
  | some (Sum.inl n) => toString n
  | some (Sum.inr s) => s

/-- A native (CLI) result record, restricted to the fields read by
`aggregate_results.py`: dataset, method, the `cpu` axis, problem size and
the statistics mean.  A field the JSON may lack is an `Option`. -/
structure CliRecord where
  dataset : String
  method : String
  cpu : Option (Int ⊕ String)
  sequences : Option Int
  sites : Option Int
  mean : Option ℚ
deriving DecidableEq

/-- A sandboxed (WASM) result record, restricted to the fields read by
`aggregate_results.py`: dataset, method, the `browser` axis, problem size
and the statistics mean. -/
structure WasmRecord where
  dataset : String
  method : String
  browser : Option String
  sequences : Option Int
  sites : Option Int
  mean : Option ℚ
deriving DecidableEq

/-- The composite lookup key `(dataset, method, axis)`. -/
abbrev ConfigKey := String × String × String

/-- The key `(r.get("dataset"), r.get("method"), str(r.get("cpu", "")))`
(`aggregate_results.py` line 60). -/
def cliKey (r : CliRecord) : ConfigKey := (r.dataset, r.method, pyStr r.cpu)

/-- The key `(r.get("dataset"), r.get("method"), r.get("browser", ""))`
(`aggregate_results.py` line 66). -/
def wasmKey (r : WasmRecord) : ConfigKey := (r.dataset, r.method, r.browser.getD "")

/-- Python dict assignment `d[k] = v`: if the key is already present its
value is replaced in place (insertion order is preserved), otherwise the
pair is appended. -/
def dictInsert (al : List (ConfigKey × ℚ)) (k : ConfigKey) (v : ℚ) :
    List (ConfigKey × ℚ) :=
  if al.any (fun p => p.1 = k) then
    al.map (fun p => if p.1 = k then (k, v) else p)
  else al ++ [(k, v)]

/-- Python `d.get(k)`: the value at the (unique) occurrence of `k`, if any. -/
def dictGet (al : List (ConfigKey × ℚ)) (k : ConfigKey) : Option ℚ :=
  (al.find? (fun p => p.1 = k)).map (fun p => p.2)

/-- One pass of the lookup-building loop of `aggregate_results.py` lines
58-68: insert `key r ↦ mean` unless the record's mean is missing or `0`
(`if r.get("statistics", {}).get("mean"):` — Python truthiness, so a mean
of `0` is skipped exactly like a missing one). -/
def lookupStep (key : α → ConfigKey) (meanOf : α → Option ℚ)
    (al : List (ConfigKey × ℚ)) (r : α) : List (ConfigKey × ℚ) :=
  match meanOf r with
  | some m => if m = 0 then al else dictInsert al (key r) m
  | none => al

/-- The lookup-building loop of `aggregate_results.py` lines 58-68, run
over the whole record list in order. -/
def buildLookup (key : α → ConfigKey) (meanOf : α → Option ℚ) (l : List α) :
    List (ConfigKey × ℚ) :=
  l.foldl (lookupStep key meanOf) []

/-- The `cli_lookup` table (`aggregate_results.py` lines 58-62). -/
def cli_lookup (l : List CliRecord) : List (ConfigKey × ℚ) :=
  buildLookup cliKey CliRecord.mean l

/-- The `wasm_lookup` table (`aggregate_results.py` lines 64-68). -/
def wasm_lookup (l : List WasmRecord) : List (ConfigKey × ℚ) :=
  buildLookup wasmKey WasmRecord.mean l

/-- Python truthiness of a possibly-missing float: `None` and `0` are
falsy, any other value truthy. -/
def truthyQ : Option ℚ → Bool
  | none => false
  | some q => if q = 0 then false else true

/-- Python `a or b` on possibly-missing floats: `b` when `a` is falsy. -/
def pyOr (a b : Option ℚ) : Option ℚ := if truthyQ a then a else b

/-- Rounding to the nearest integer with ties to even, as used by Python's
`format(x, ".0f")` (the sign of an IEEE negative zero is abstracted away:
values in `(-1/2, 0)` render here as `0`, not `-0`). -/
def pyRound (q : ℚ) : ℤ :=
  if q - ⌊q⌋ < 1 / 2 then ⌊q⌋
  else if 1 / 2 < q - ⌊q⌋ then ⌊q⌋ + 1
  else if ⌊q⌋ % 2 = 0 then ⌊q⌋ else ⌊q⌋ + 1

/-- The millisecond cell: formatted as whole milliseconds when the value is
truthy, else the dash (`aggregate_results.py` lines 88-90). -/
def msCell : Option ℚ → String
  | none => "-"
  | some q => if q = 0 then "-" else toString (pyRound q) ++ "ms"

/-- The overhead `((wasm - cpu1) / cpu1) * 100` (`aggregate_results.py` line 94). -/
def overheadValue (c w : ℚ) : ℚ := (w - c) / c * 100

/-- The percent cell: a leading plus sign when the overhead is positive,
none otherwise (`aggregate_results.py` line 95). -/
def pctCell (o : ℚ) : String :=
  if 0 < o then "+" ++ toString (pyRound o) ++ "%" else toString (pyRound o) ++ "%"

/-- The overhead cell of a comparison row (`aggregate_results.py` lines
92-97): the formatted overhead when `cpu1 and wasm` is truthy, else the
placeholder dash. -/
def overheadCell (c w : Option ℚ) : String :=
  match c, w with
  | some cq, some wq => if cq ≠ 0 ∧ wq ≠ 0 then pctCell (overheadValue cq wq) else "-"
  | _, _ => "-"

/-- The problem-size label, sequences times sites with a question mark for a
missing field (`aggregate_results.py` line 81). -/
def sizeLabel (seqs sites : Option Int) : String :=
  (match seqs with | some n => toString n | none => "?") ++ "×" ++
  (match sites with | some n => toString n | none => "?")

/-- The `cli_results + wasm_results` sequence scanned by the seq×sites
loop, projected to the two fields it reads (dataset, rendered size). -/
def metas (cli : List CliRecord) (wasm : List WasmRecord) : List (String × String) :=
  cli.map (fun r => (r.dataset, sizeLabel r.sequences r.sites)) ++
  wasm.map (fun r => (r.dataset, sizeLabel r.sequences r.sites))

/-- The seq×sites loop (`aggregate_results.py` lines 78-82): the size label
of the first record whose dataset matches, else the initial `""`. -/
def seqSites (ms : List (String × String)) (ds : String) : String :=
  ((ms.find? (fun p => p.1 = ds)).map (fun p => p.2)).getD ""

/-- Python `sorted(set(...))` over strings: distinct values in ascending order. -/
def sortedSet (l : List String) : List String :=
  List.insertionSort (· ≤ ·) l.dedup

/-- The CPU=all cell `cli_lookup.get((ds, method, "0")) or cli_lookup.get((ds, method, "all"))`
(`aggregate_results.py` line 85): the CPU=all cell resolves the literal-0
key first and falls back to the "all" sentinel key. -/
def cpuAllCell (cliL : List (ConfigKey × ℚ)) (ds m : String) : Option ℚ :=
  pyOr (dictGet cliL (ds, m, "0")) (dictGet cliL (ds, m, "all"))

/-- One comparison-table row (`aggregate_results.py` lines 76-99): dataset,
seq×sites, CPU=1, CPU=all, WASM and overhead cells. -/
def mkRow (cliL wasmL : List (ConfigKey × ℚ)) (ms : List (String × String))
    (ds m : String) : List String :=
  [ds, seqSites ms ds, msCell (dictGet cliL (ds, m, "1")),
    msCell (cpuAllCell cliL ds m), msCell (dictGet wasmL (ds, m, "chromium")),
    overheadCell (dictGet cliL (ds, m, "1")) (dictGet wasmL (ds, m, "chromium"))]

/-- One pass of the Summary-section loop (`aggregate_results.py` lines
108-111): the overhead a `wasm_lookup` item `((ds, method, browser), w)`
contributes — defined when its `(ds, method, "1")` native baseline is
present and both values are truthy. -/
def summaryEntry (cliL : List (ConfigKey × ℚ)) (p : ConfigKey × ℚ) : Option ℚ :=
  match dictGet cliL (p.1.1, p.1.2.1, "1") with
  | some c => if c ≠ 0 ∧ p.2 ≠ 0 then some (overheadValue c p.2) else none
  | none => none

/-- The overheads list of the Summary section (`aggregate_results.py` lines
107-111): one entry per `wasm_lookup` item — whatever its browser — whose
`(ds, method, "1")` native baseline is present, both values truthy. -/
def summaryOverheads (cliL wasmL : List (ConfigKey × ℚ)) : List ℚ :=
  wasmL.filterMap (summaryEntry cliL)

/-- The Summary section (`aggregate_results.py` lines 106-117): present only
when both lookups are nonempty (`if wasm_lookup and cli_lookup:`) and the
overheads list is nonempty (`if overheads:`); then (average, min, max). -/
def summaryStats (cliL wasmL : List (ConfigKey × ℚ)) : Option (ℚ × ℚ × ℚ) :=
  if wasmL = [] ∨ cliL = [] then none
  else if summaryOverheads cliL wasmL = [] then none
  else some ((summaryOverheads cliL wasmL).sum / ((summaryOverheads cliL wasmL).length : ℚ),
    pyListMin (summaryOverheads cliL wasmL), pyListMax (summaryOverheads cliL wasmL))

/-- The content of the markdown comparison report produced by
`write_markdown` (`aggregate_results.py` lines 44-117), minus the fixed
scaffolding and the generation timestamp: the two counts, one section per
method (methods sorted) with one row per dataset (datasets sorted), and the
optional summary statistics. -/
structure Report where
  cliCount : Nat
  wasmCount : Nat
  sections : List (String × List (List String))
  summary : Option (ℚ × ℚ × ℚ)
deriving DecidableEq

/-- The function `write_markdown` (`aggregate_results.py` lines 44-117), rendered as a
`Report` value. -/
def write_markdown (cli : List CliRecord) (wasm : List WasmRecord) : Report :=
  { cliCount := cli.length
    wasmCount := wasm.length
    sections := (sortedSet (cli.map (fun r => r.method) ++ wasm.map (fun r => r.method))).map
      (fun m => (m, (sortedSet (cli.map (fun r => r.dataset) ++
        wasm.map (fun r => r.dataset))).map
          (fun ds => mkRow (cli_lookup cli) (wasm_lookup wasm) (metas cli wasm) ds m)))
    summary := summaryStats (cli_lookup cli) (wasm_lookup wasm) }

/-- The function `load_results` (`aggregate_results.py` lines 14-24), with the filesystem
shallowly embedded: a source location is `none` when the directory does not
exist, otherwise the list of discovered items, each already reduced to its
parse outcome (`some` a record, or `none` when `json.load` raises and the
item is skipped with a warning). -/
def load_results (dir : Option (List (Option α))) : List α :=
  match dir with
  | none => []
  | some items => items.filterMap id

/-! ### Association-list (Python dict) lemmas -/

theorem dictGet_cons (p : ConfigKey × ℚ) (al : List (ConfigKey × ℚ)) (k : ConfigKey) :
    dictGet (p :: al) k = if p.1 = k then some p.2 else dictGet al k := by
  unfold dictGet
  by_cases h : p.1 = k
  · rw [List.find?_cons_of_pos _ (by simpa using h)]
    simp [h]
  · rw [List.find?_cons_of_neg _ (by simpa using h)]
    simp [h]

theorem dictGet_eq_none_iff (al : List (ConfigKey × ℚ)) (k : ConfigKey) :
    dictGet al k = none ↔ ∀ p ∈ al, p.1 ≠ k := by
  unfold dictGet
  simp [Option.map_eq_none', List.find?_eq_none]

theorem mem_of_dictGet_eq_some {al : List (ConfigKey × ℚ)} {k : ConfigKey} {v : ℚ}
    (h : dictGet al k = some v) : (k, v) ∈ al := by
  unfold dictGet at h
  obtain ⟨p, hp, hv⟩ := Option.map_eq_some'.mp h
  have hmem := List.mem_of_find?_eq_some hp
  have hk : p.1 = k := by simpa using List.find?_some hp
  have : p = (k, v) := by
    cases p
    simp_all
  rwa [this] at hmem

theorem dictGet_eq_some_of_mem {al : List (ConfigKey × ℚ)}
    (hnd : (al.map Prod.fst).Nodup) {k : ConfigKey} {v : ℚ}
    (hmem : (k, v) ∈ al) : dictGet al k = some v := by
  induction al with
  | nil => simp at hmem
  | cons p rest ih =>
    rw [List.map_cons, List.nodup_cons] at hnd
    rw [dictGet_cons]
    rcases List.mem_cons.mp hmem with h | hm
    · rw [← h]
      simp
    · have hk : p.1 ≠ k := by
        intro hpk
        exact hnd.1 (hpk ▸ List.mem_map.mpr ⟨(k, v), hm, rfl⟩)
      rw [if_neg hk]
      exact ih hnd.2 hm

theorem dictGet_perm {al al' : List (ConfigKey × ℚ)} (hperm : al.Perm al')
    (hnd : (al.map Prod.fst).Nodup) (k : ConfigKey) :
    dictGet al k = dictGet al' k := by
  have hnd' : (al'.map Prod.fst).Nodup := ((hperm.map Prod.fst).nodup_iff).mp hnd
  cases h : dictGet al k with
  | none =>
    symm
    rw [dictGet_eq_none_iff] at h ⊢
    exact fun p hp => h p (hperm.mem_iff.mpr hp)
  | some v =>
    exact (dictGet_eq_some_of_mem hnd' (hperm.mem_iff.mp (mem_of_dictGet_eq_some h))).symm

theorem dictInsert_of_not_mem (al : List (ConfigKey × ℚ)) (k : ConfigKey) (v : ℚ)
    (h : ∀ p ∈ al, p.1 ≠ k) : dictInsert al k v = al ++ [(k, v)] := by
  unfold dictInsert
  have hany : al.any (fun p => p.1 = k) = false := by
    rw [List.any_eq_false]
    intro p hp
    simpa using h p hp
  rw [hany]
  simp

theorem keys_dictInsert (al : List (ConfigKey × ℚ)) (k : ConfigKey) (v : ℚ) :
    (dictInsert al k v).map Prod.fst =
      if al.any (fun p => p.1 = k) then al.map Prod.fst else al.map Prod.fst ++ [k] := by
  unfold dictInsert
  by_cases h : al.any (fun p => p.1 = k) = true
  · rw [if_pos h, if_pos h, List.map_map]
    apply List.map_congr_left
    intro p _
    by_cases hpk : p.1 = k <;> simp [hpk]
  · rw [if_neg h, if_neg h]
    simp

theorem keys_nodup_dictInsert {al : List (ConfigKey × ℚ)} (k : ConfigKey) (v : ℚ)
    (hnd : (al.map Prod.fst).Nodup) : ((dictInsert al k v).map Prod.fst).Nodup := by
  rw [keys_dictInsert]
  by_cases h : al.any (fun p => p.1 = k) = true
  · rwa [if_pos h]
  · rw [if_neg h]
    refine hnd.append (List.nodup_singleton k) ?_
    intro a ha hk
    rw [List.mem_singleton] at hk
    obtain ⟨p, hp, hpk⟩ := List.mem_map.mp ha
    exact h (List.any_eq_true.mpr ⟨p, hp, by simp [hpk, hk]⟩)

theorem values_dictInsert {al : List (ConfigKey × ℚ)} {k : ConfigKey} {v : ℚ}
    {p : ConfigKey × ℚ} (hp : p ∈ dictInsert al k v) : p = (k, v) ∨ p ∈ al := by
  unfold dictInsert at hp
  by_cases h : al.any (fun p => p.1 = k) = true
  · rw [if_pos h] at hp
    obtain ⟨q, hq, hqp⟩ := List.mem_map.mp hp
    by_cases hqk : q.1 = k
    · left
      rw [← hqp]
      simp [hqk]
    · right
      rw [← hqp]
      simpa [hqk] using hq
  · rw [if_neg h] at hp
    rcases List.mem_append.mp hp with h1 | h2
    · exact Or.inr h1
    · exact Or.inl (List.mem_singleton.mp h2)

theorem dictGet_append (al bl : List (ConfigKey × ℚ)) (k : ConfigKey) :
    dictGet (al ++ bl) k = (dictGet al k).or (dictGet bl k) := by
  unfold dictGet
  rw [List.find?_append]
  cases List.find? (fun p => p.1 = k) al <;> simp

theorem dictGet_replace_self (al : List (ConfigKey × ℚ)) (k : ConfigKey) (v : ℚ) :
    dictGet (al.map fun p => if p.1 = k then (k, v) else p) k =
      if al.any (fun p => p.1 = k) then some v else none := by
  induction al with
  | nil => simp [dictGet]
  | cons p rest ih =>
    rw [List.map_cons]
    by_cases hpk : p.1 = k
    · rw [if_pos hpk, dictGet_cons]
      simp [hpk]
    · rw [if_neg hpk, dictGet_cons, if_neg hpk, ih]
      simp only [List.any_cons, decide_eq_false hpk, Bool.false_or]

theorem dictGet_dictInsert_self (al : List (ConfigKey × ℚ)) (k : ConfigKey) (v : ℚ) :
    dictGet (dictInsert al k v) k = some v := by
  unfold dictInsert
  by_cases h : al.any (fun p => p.1 = k) = true
  · rw [if_pos h, dictGet_replace_self, if_pos h]
  · rw [if_neg h, dictGet_append]
    have hnone : dictGet al k = none := by
      rw [dictGet_eq_none_iff]
      intro p hp hpk
      exact h (List.any_eq_true.mpr ⟨p, hp, by simp [hpk]⟩)
    rw [hnone]
    simp [dictGet_cons]

theorem dictGet_dictInsert_ne (al : List (ConfigKey × ℚ)) {k' k : ConfigKey}
    (h : k' ≠ k) (v : ℚ) : dictGet (dictInsert al k' v) k = dictGet al k := by
  unfold dictInsert
  by_cases hany : al.any (fun p => p.1 = k') = true
  · rw [if_pos hany]
    clear hany
    induction al with
    | nil => simp
    | cons p rest ih =>
      rw [List.map_cons]
      by_cases hpk' : p.1 = k'
      · rw [if_pos hpk', dictGet_cons, dictGet_cons, if_neg (by simpa using h),
          if_neg (by rw [hpk']; exact h), ih]
      · rw [if_neg hpk', dictGet_cons, dictGet_cons, ih]
  · rw [if_neg hany, dictGet_append]
    have : dictGet [(k', v)] k = none := by
      rw [dictGet_eq_none_iff]
      intro p hp
      rw [List.mem_singleton] at hp
      rw [hp]
      exact h
    rw [this]
    simp

/-! ### Lookup-table lemmas -/

theorem lookupStep_none {key : α → ConfigKey} {meanOf : α → Option ℚ}
    {al : List (ConfigKey × ℚ)} {r : α} (h : meanOf r = none) :
    lookupStep key meanOf al r = al := by
  unfold lookupStep
  rw [h]

theorem lookupStep_zero {key : α → ConfigKey} {meanOf : α → Option ℚ}
    {al : List (ConfigKey × ℚ)} {r : α} (h : meanOf r = some 0) :
    lookupStep key meanOf al r = al := by
  unfold lookupStep
  rw [h]
  simp

theorem lookupStep_some {key : α → ConfigKey} {meanOf : α → Option ℚ}
    {al : List (ConfigKey × ℚ)} {r : α} {m : ℚ} (h : meanOf r = some m)
    (h0 : m ≠ 0) : lookupStep key meanOf al r = dictInsert al (key r) m := by
  unfold lookupStep
  rw [h]
  simp [h0]

theorem foldl_lookupStep_get_ne {key : α → ConfigKey} {meanOf : α → Option ℚ}
    (l : List α) (al : List (ConfigKey × ℚ)) (k : ConfigKey)
    (h : ∀ r ∈ l, key r ≠ k) :
    dictGet (l.foldl (lookupStep key meanOf) al) k = dictGet al k := by
  induction l generalizing al with
  | nil => rfl
  | cons r rest ih =>
    rw [List.foldl_cons]
    rw [ih _ (fun r' hr' => h r' (List.mem_cons_of_mem _ hr'))]
    cases hm : meanOf r with
    | none => rw [lookupStep_none hm]
    | some m =>
      by_cases hm0 : m = 0
      · rw [hm0] at hm
        rw [lookupStep_zero hm]
      · rw [lookupStep_some hm hm0,
          dictGet_dictInsert_ne _ (h r (List.mem_cons_self _ _)) _]

/-- The value a record contributes to a lookup table: its key paired with
its mean, unless the mean is missing or zero. -/
def lookupEntry (key : α → ConfigKey) (meanOf : α → Option ℚ) (r : α) :
    Option (ConfigKey × ℚ) :=
  match meanOf r with
  | some m => if m = 0 then none else some (key r, m)
  | none => none

theorem lookupEntry_none {key : α → ConfigKey} {meanOf : α → Option ℚ} {r : α}
    (h : meanOf r = none) : lookupEntry key meanOf r = none := by
  unfold lookupEntry
  rw [h]

theorem lookupEntry_zero {key : α → ConfigKey} {meanOf : α → Option ℚ} {r : α}
    (h : meanOf r = some 0) : lookupEntry key meanOf r = none := by
  unfold lookupEntry
  rw [h]
  simp

theorem lookupEntry_some {key : α → ConfigKey} {meanOf : α → Option ℚ} {r : α}
    {m : ℚ} (h : meanOf r = some m) (h0 : m ≠ 0) :
    lookupEntry key meanOf r = some (key r, m) := by
  unfold lookupEntry
  rw [h]
  simp [h0]

theorem foldl_lookupStep_eq_append {key : α → ConfigKey} {meanOf : α → Option ℚ}
    (l : List α) (al : List (ConfigKey × ℚ))
    (hdisj : ∀ p ∈ al, ∀ r ∈ l, p.1 ≠ key r)
    (hnd : (l.map key).Nodup) :
    l.foldl (lookupStep key meanOf) al = al ++ l.filterMap (lookupEntry key meanOf) := by
  induction l generalizing al with
  | nil => simp
  | cons r rest ih =>
    rw [List.map_cons, List.nodup_cons] at hnd
    rw [List.foldl_cons, List.filterMap_cons]
    cases hm : meanOf r with
    | none =>
      rw [lookupStep_none hm, lookupEntry_none hm]
      exact ih al (fun p hp r' hr' => hdisj p hp r' (List.mem_cons_of_mem _ hr')) hnd.2
    | some m =>
      by_cases hm0 : m = 0
      · rw [hm0] at hm
        rw [lookupStep_zero hm, lookupEntry_zero hm]
        exact ih al (fun p hp r' hr' => hdisj p hp r' (List.mem_cons_of_mem _ hr')) hnd.2
      · have hdisj' : ∀ p ∈ al ++ [(key r, m)], ∀ r' ∈ rest, p.1 ≠ key r' := by
          intro p hp r' hr'
          rcases List.mem_append.mp hp with h1 | h2
          · exact hdisj p h1 r' (List.mem_cons_of_mem _ hr')
          · rw [List.mem_singleton] at h2
            rw [h2]
            intro hkey
            apply hnd.1
            rw [show (key r : ConfigKey) = key r' from hkey]
            exact List.mem_map.mpr ⟨r', hr', rfl⟩
        rw [lookupStep_some hm hm0, lookupEntry_some hm hm0,
          dictInsert_of_not_mem al _ m (fun p hp => hdisj p hp r (List.mem_cons_self _ _)),
          ih (al ++ [(key r, m)]) hdisj' hnd.2, List.append_assoc]
        rfl

theorem buildLookup_eq_filterMap {key : α → ConfigKey} {meanOf : α → Option ℚ}
    {l : List α} (hnd : (l.map key).Nodup) :
    buildLookup key meanOf l = l.filterMap (lookupEntry key meanOf) := by
  unfold buildLookup
  rw [foldl_lookupStep_eq_append l [] (by simp) hnd, List.nil_append]

theorem keys_nodup_buildLookup (key : α → ConfigKey) (meanOf : α → Option ℚ)
    (l : List α) : ((buildLookup key meanOf l).map Prod.fst).Nodup := by
  unfold buildLookup
  have : ∀ al : List (ConfigKey × ℚ), (al.map Prod.fst).Nodup →
      ((l.foldl (lookupStep key meanOf) al).map Prod.fst).Nodup := by
    induction l with
    | nil => exact fun al h => h
    | cons r rest ih =>
      intro al h
      rw [List.foldl_cons]
      apply ih
      cases hm : meanOf r with
      | none =>
        rw [lookupStep_none hm]
        exact h
      | some m =>
        by_cases hm0 : m = 0
        · rw [hm0] at hm
          rw [lookupStep_zero hm]
          exact h
        · rw [lookupStep_some hm hm0]
          exact keys_nodup_dictInsert _ _ h
  exact this [] (by simp)

theorem values_buildLookup_ne_zero (key : α → ConfigKey) (meanOf : α → Option ℚ)
    (l : List α) : ∀ p ∈ buildLookup key meanOf l, p.2 ≠ 0 := by
  unfold buildLookup
  have : ∀ al : List (ConfigKey × ℚ), (∀ p ∈ al, p.2 ≠ 0) →
      ∀ p ∈ l.foldl (lookupStep key meanOf) al, p.2 ≠ 0 := by
    induction l with
    | nil => exact fun al h => h
    | cons r rest ih =>
      intro al h
      rw [List.foldl_cons]
      apply ih
      cases hm : meanOf r with
      | none =>
        rw [lookupStep_none hm]
        exact h
      | some m =>
        by_cases hm0 : m = 0
        · rw [hm0] at hm
          rw [lookupStep_zero hm]
          exact h
        · rw [lookupStep_some hm hm0]
          intro p hp
          rcases values_dictInsert hp with h1 | h2
          · rw [h1]
            exact hm0
          · exact h p h2
  exact this [] (by simp)

theorem buildLookup_perm {key : α → ConfigKey} {meanOf : α → Option ℚ}
    {l l' : List α} (hperm : l.Perm l') (hnd : (l.map key).Nodup) :
    (buildLookup key meanOf l).Perm (buildLookup key meanOf l') := by
  rw [buildLookup_eq_filterMap hnd,
    buildLookup_eq_filterMap (((hperm.map key).nodup_iff).mp hnd)]
  exact hperm.filterMap _

/-! ### Minimum / maximum lemmas -/

theorem foldl_min_spec (xs : List ℚ) (a : ℚ) :
    (xs.foldl min a = a ∨ xs.foldl min a ∈ xs) ∧ xs.foldl min a ≤ a ∧
      ∀ b ∈ xs, xs.foldl min a ≤ b := by
  induction xs generalizing a with
  | nil => simp
  | cons x rest ih =>
    rw [List.foldl_cons]
    obtain ⟨h1, h2, h3⟩ := ih (min a x)
    refine ⟨?_, le_trans h2 (min_le_left _ _), ?_⟩
    · rcases h1 with h | h
      · rcases min_choice a x with hm | hm
        · left
          rw [h, hm]
        · right
          rw [h, hm]
          exact List.mem_cons_self _ _
      · exact Or.inr (List.mem_cons_of_mem _ h)
    · intro b hb
      rcases List.mem_cons.mp hb with rfl | hb'
      · exact le_trans h2 (min_le_right _ _)
      · exact h3 b hb'

theorem foldl_max_spec (xs : List ℚ) (a : ℚ) :
    (xs.foldl max a = a ∨ xs.foldl max a ∈ xs) ∧ a ≤ xs.foldl max a ∧
      ∀ b ∈ xs, b ≤ xs.foldl max a := by
  induction xs generalizing a with
  | nil => simp
  | cons x rest ih =>
    rw [List.foldl_cons]
    obtain ⟨h1, h2, h3⟩ := ih (max a x)
    refine ⟨?_, le_trans (le_max_left _ _) h2, ?_⟩
    · rcases h1 with h | h
      · rcases max_choice a x with hm | hm
        · left
          rw [h, hm]
        · right
          rw [h, hm]
          exact List.mem_cons_self _ _
      · exact Or.inr (List.mem_cons_of_mem _ h)
    · intro b hb
      rcases List.mem_cons.mp hb with rfl | hb'
      · exact le_trans (le_max_right _ _) h2
      · exact h3 b hb'

theorem pyListMin_spec (l : List ℚ) (h : l ≠ []) :
    pyListMin l ∈ l ∧ ∀ b ∈ l, pyListMin l ≤ b := by
  cases l with
  | nil => exact absurd rfl h
  | cons x xs =>
    obtain ⟨h1, h2, h3⟩ := foldl_min_spec xs x
    have hdef : pyListMin (x :: xs) = xs.foldl min x := rfl
    rw [hdef]
    refine ⟨?_, ?_⟩
    · rcases h1 with h | h
      · rw [h]
        exact List.mem_cons_self _ _
      · exact List.mem_cons_of_mem _ h
    · intro b hb
      rcases List.mem_cons.mp hb with rfl | hb'
      · exact h2
      · exact h3 b hb'

theorem pyListMax_spec (l : List ℚ) (h : l ≠ []) :
    pyListMax l ∈ l ∧ ∀ b ∈ l, b ≤ pyListMax l := by
  cases l with
  | nil => exact absurd rfl h
  | cons x xs =>
    obtain ⟨h1, h2, h3⟩ := foldl_max_spec xs x
    have hdef : pyListMax (x :: xs) = xs.foldl max x := rfl
    rw [hdef]
    refine ⟨?_, ?_⟩
    · rcases h1 with h | h
      · rw [h]
        exact List.mem_cons_self _ _
      · exact List.mem_cons_of_mem _ h
    · intro b hb
      rcases List.mem_cons.mp hb with rfl | hb'
      · exact h2
      · exact h3 b hb'

theorem perm_ne_nil {α : Type _} {l l' : List α} (hperm : l.Perm l') (h : l ≠ []) :
    l' ≠ [] := by
  intro he
  rw [he] at hperm
  exact h hperm.eq_nil

theorem pyListMin_perm {l l' : List ℚ} (hperm : l.Perm l') (h : l ≠ []) :
    pyListMin l = pyListMin l' := by
  obtain ⟨hm, hle⟩ := pyListMin_spec l h
  obtain ⟨hm', hle'⟩ := pyListMin_spec l' (perm_ne_nil hperm h)
  exact le_antisymm (hle _ (hperm.mem_iff.mpr hm')) (hle' _ (hperm.mem_iff.mp hm))

theorem pyListMax_perm {l l' : List ℚ} (hperm : l.Perm l') (h : l ≠ []) :
    pyListMax l = pyListMax l' := by
  obtain ⟨hm, hle⟩ := pyListMax_spec l h
  obtain ⟨hm', hle'⟩ := pyListMax_spec l' (perm_ne_nil hperm h)
  exact le_antisymm (hle' _ (hperm.mem_iff.mp hm)) (hle _ (hperm.mem_iff.mpr hm'))

/-! ### Sorting and seq-sites lemmas -/

theorem sortedSet_perm {l l' : List String} (hperm : l.Perm l') :
    sortedSet l = sortedSet l' := by
  unfold sortedSet
  exact List.eq_of_perm_of_sorted
    ((List.perm_insertionSort _ _).trans (hperm.dedup.trans (List.perm_insertionSort _ _).symm))
    (List.sorted_insertionSort _ _) (List.sorted_insertionSort _ _)

theorem seqSites_perm {ms ms' : List (String × String)} (hperm : ms.Perm ms')
    (hcons : ∀ p ∈ ms, ∀ q ∈ ms, p.1 = q.1 → p.2 = q.2) (ds : String) :
    seqSites ms ds = seqSites ms' ds := by
  unfold seqSites
  cases hf : ms.find? (fun p => p.1 = ds) with
  | none =>
    have hf' : ms'.find? (fun p => p.1 = ds) = none := by
      rw [List.find?_eq_none] at hf ⊢
      exact fun p hp => hf p (hperm.mem_iff.mpr hp)
    rw [hf']
  | some p =>
    have hpm : p ∈ ms := List.mem_of_find?_eq_some hf
    have hpd : p.1 = ds := by simpa using List.find?_some hf
    cases hf' : ms'.find? (fun p => p.1 = ds) with
    | none =>
      exfalso
      rw [List.find?_eq_none] at hf'
      have hne := hf' p (hperm.mem_iff.mp hpm)
      simp at hne
      exact hne hpd
    | some q =>
      have hqm : q ∈ ms := hperm.mem_iff.mpr (List.mem_of_find?_eq_some hf')
      have hqd : q.1 = ds := by simpa using List.find?_some hf'
      have hpq : p.2 = q.2 := hcons p hpm q hqm (by rw [hpd, hqd])
      simp [hpq]

/-! ### Summary-section lemmas -/

theorem summaryEntry_none {cliL : List (ConfigKey × ℚ)} {p : ConfigKey × ℚ}
    (h : dictGet cliL (p.1.1, p.1.2.1, "1") = none) : summaryEntry cliL p = none := by
  unfold summaryEntry
  rw [h]

theorem summaryEntry_some_pos {cliL : List (ConfigKey × ℚ)} {p : ConfigKey × ℚ} {c : ℚ}
    (h : dictGet cliL (p.1.1, p.1.2.1, "1") = some c) (hc : c ≠ 0) (hp : p.2 ≠ 0) :
    summaryEntry cliL p = some (overheadValue c p.2) := by
  unfold summaryEntry
  rw [h]
  show (if c ≠ 0 ∧ p.2 ≠ 0 then some (overheadValue c p.2) else none) =
    some (overheadValue c p.2)
  rw [if_pos ⟨hc, hp⟩]

theorem summaryEntry_some_neg {cliL : List (ConfigKey × ℚ)} {p : ConfigKey × ℚ} {c : ℚ}
    (h : dictGet cliL (p.1.1, p.1.2.1, "1") = some c) (hcond : ¬ (c ≠ 0 ∧ p.2 ≠ 0)) :
    summaryEntry cliL p = none := by
  unfold summaryEntry
  rw [h]
  show (if c ≠ 0 ∧ p.2 ≠ 0 then some (overheadValue c p.2) else none) = none
  rw [if_neg hcond]

theorem summaryOverheads_congr {cliL cliL' wasmL wasmL' : List (ConfigKey × ℚ)}
    (hget : ∀ k, dictGet cliL k = dictGet cliL' k) (hperm : wasmL.Perm wasmL') :
    (summaryOverheads cliL wasmL).Perm (summaryOverheads cliL' wasmL') := by
  unfold summaryOverheads summaryEntry
  simp only [hget]
  exact hperm.filterMap _

theorem summaryStats_congr {cliL cliL' wasmL wasmL' : List (ConfigKey × ℚ)}
    (hget : ∀ k, dictGet cliL k = dictGet cliL' k)
    (hpermC : cliL.Perm cliL') (hpermW : wasmL.Perm wasmL') :
    summaryStats cliL wasmL = summaryStats cliL' wasmL' := by
  unfold summaryStats
  have hovs := summaryOverheads_congr hget hpermW
  have hw : wasmL = [] ↔ wasmL' = [] := by
    constructor
    · intro h
      rw [h] at hpermW
      exact hpermW.symm.eq_nil
    · intro h
      rw [h] at hpermW
      exact hpermW.eq_nil
  have hc : cliL = [] ↔ cliL' = [] := by
    constructor
    · intro h
      rw [h] at hpermC
      exact hpermC.symm.eq_nil
    · intro h
      rw [h] at hpermC
      exact hpermC.eq_nil
  by_cases hnil : wasmL = [] ∨ cliL = []
  · have hnil' : wasmL' = [] ∨ cliL' = [] := by
      rcases hnil with h | h
      · exact Or.inl (hw.mp h)
      · exact Or.inr (hc.mp h)
    rw [if_pos hnil, if_pos hnil']
  · have hnil' : ¬(wasmL' = [] ∨ cliL' = []) := by
      intro hx
      rcases hx with h | h
      · exact hnil (Or.inl (hw.mpr h))
      · exact hnil (Or.inr (hc.mpr h))
    rw [if_neg hnil, if_neg hnil']
    by_cases hov : summaryOverheads cliL wasmL = []
    · have hov' : summaryOverheads cliL' wasmL' = [] := by
        rw [hov] at hovs
        exact hovs.symm.eq_nil
      rw [if_pos hov, if_pos hov']
    · rw [if_neg hov, if_neg (perm_ne_nil hovs hov)]
      rw [hovs.sum_eq, hovs.length_eq, pyListMin_perm hovs hov, pyListMax_perm hovs hov]

/-! ### Statistics-engine projection lemmas -/

theorem compute_statistics_all_failed {its : List Iteration}
    (h : successful_times its = []) :
    compute_statistics its =
      { n := 0, mean := none, stdDev := none, min := none, max := none,
        median := none, standardError := none, cv := none,
        error := some "All iterations failed" } := by
  unfold compute_statistics
  rw [if_pos h]

theorem compute_statistics_pos {its : List Iteration}
    (h : ¬ successful_times its = []) :
    compute_statistics its =
      { n := (successful_times its).length
        mean := some (pyMean (successful_times its))
        stdDev := some (if 1 < (successful_times its).length
          then pyStdev (successful_times its) else 0)
        min := some (pyListMin (successful_times its))
        max := some (pyListMax (successful_times its))
        median := some (pyMedian (successful_times its))
        standardError := some (if 0 < (successful_times its).length then
          (if 1 < (successful_times its).length then pyStdev (successful_times its) else 0) /
            Real.sqrt ((successful_times its).length : ℝ) else 0)
        cv := some (if 0 < pyMean (successful_times its) then
          (if 1 < (successful_times its).length then pyStdev (successful_times its) else 0) /
            (pyMean (successful_times its) : ℝ) * 100 else 0)
        error := none } := by
  unfold compute_statistics
  rw [if_neg h]

/-! ### Rounding and rendering lemmas -/

theorem pyRound_nonpos {q : ℚ} (h : q ≤ 0) : pyRound q ≤ 0 := by
  have hf : ⌊q⌋ ≤ 0 := Int.floor_nonpos h
  unfold pyRound
  split_ifs with h1 h2 h3
  · exact hf
  · rcases lt_or_eq_of_le hf with hlt | heq
    · omega
    · exfalso
      rw [heq] at h2
      push_cast at h2
      linarith
  · exact hf
  · rcases lt_or_eq_of_le hf with hlt | heq
    · omega
    · exfalso
      have hr : q - (⌊q⌋ : ℚ) = 1 / 2 := le_antisymm (not_lt.mp h2) (not_lt.mp h1)
      rw [heq] at hr
      push_cast at hr
      linarith

theorem toString_int_nonpos_ne_plus (i : ℤ) (hi : i ≤ 0) (t s : String) :
    toString i ++ t ≠ "+" ++ s := by
  intro h
  have hdata := congrArg String.data h
  rw [String.data_append, String.data_append] at hdata
  rcases i with n | n
  · have hn : n = 0 := Nat.le_zero.mp (Int.ofNat_le.mp hi)
    subst hn
    rw [show (toString (Int.ofNat 0)).data = ['0'] from rfl,
      show ("+" : String).data = ['+'] from rfl, List.singleton_append] at hdata
    exact absurd (List.cons.injEq .. |>.mp hdata).1 (by decide)
  · rw [show (toString (Int.negSucc n)).data = '-' :: (Nat.repr (n + 1)).data from rfl,
      show ("+" : String).data = ['+'] from rfl, List.cons_append] at hdata
    exact absurd (List.cons.injEq .. |>.mp hdata).1 (by decide)

/-! ### Row-rendering lemmas -/

theorem mkRow_congr {cliL cliL' wasmL wasmL' : List (ConfigKey × ℚ)}
    {ms ms' : List (String × String)}
    (hc : ∀ k, dictGet cliL k = dictGet cliL' k)
    (hw : ∀ k, dictGet wasmL k = dictGet wasmL' k)
    (hs : ∀ ds, seqSites ms ds = seqSites ms' ds)
    (ds m : String) :
    mkRow cliL wasmL ms ds m = mkRow cliL' wasmL' ms' ds m := by
  unfold mkRow cpuAllCell
  rw [hc, hc, hc, hw, hs]

/-! ### Claim theorems: the Statistics Engine -/

/-- Claim C2: for every nonempty list of successful elapsed times of length
n, the summary has n equal to that length, mean the arithmetic mean of
exactly those times, standardError = stdDev / sqrt n; when n = 1 both the
stdDev and the standardError are 0; when n >= 2 the stdDev is the sample
standard deviation with the unbiased n - 1 denominator; min and max are the
least and greatest successful times, and the median is the middle of their
sorted order. -/
theorem claim_C2_statistics_summary (its : List Iteration)
    (h : successful_times its ≠ []) :
    (compute_statistics its).n = (successful_times its).length ∧
    (compute_statistics its).mean = some (pyMean (successful_times its)) ∧
    (∃ sd se : ℝ, (compute_statistics its).stdDev = some sd ∧
      (compute_statistics its).standardError = some se ∧
      se = sd / Real.sqrt (((compute_statistics its).n : ℝ))) ∧
    ((compute_statistics its).n = 1 → (compute_statistics its).stdDev = some 0 ∧
      (compute_statistics its).standardError = some 0) ∧
    (2 ≤ (compute_statistics its).n → (compute_statistics its).stdDev =
      some (Real.sqrt (((((successful_times its).map
        (fun x => (x - pyMean (successful_times its)) ^ 2)).sum /
          (((successful_times its).length : ℚ) - 1) : ℚ) : ℝ)))) ∧
    (∃ mn, (compute_statistics its).min = some mn ∧ mn ∈ successful_times its ∧
      ∀ b ∈ successful_times its, mn ≤ b) ∧
    (∃ mx, (compute_statistics its).max = some mx ∧ mx ∈ successful_times its ∧
      ∀ b ∈ successful_times its, b ≤ mx) ∧
    (compute_statistics its).median = some (pyMedian (successful_times its)) := by
  have hlen : 0 < (successful_times its).length := List.length_pos.mpr h
  have hn : (compute_statistics its).n = (successful_times its).length := by
    rw [compute_statistics_pos h]
  have hmean : (compute_statistics its).mean = some (pyMean (successful_times its)) := by
    rw [compute_statistics_pos h]
  have hsd : (compute_statistics its).stdDev = some (if 1 < (successful_times its).length
      then pyStdev (successful_times its) else 0) := by
    rw [compute_statistics_pos h]
  have hse : (compute_statistics its).standardError =
      some (if 0 < (successful_times its).length then
        (if 1 < (successful_times its).length then pyStdev (successful_times its) else 0) /
          Real.sqrt ((successful_times its).length : ℝ) else 0) := by
    rw [compute_statistics_pos h]
  have hmin : (compute_statistics its).min = some (pyListMin (successful_times its)) := by
    rw [compute_statistics_pos h]
  have hmax : (compute_statistics its).max = some (pyListMax (successful_times its)) := by
    rw [compute_statistics_pos h]
  have hmed : (compute_statistics its).median = some (pyMedian (successful_times its)) := by
    rw [compute_statistics_pos h]
  refine ⟨hn, hmean, ?_, ?_, ?_, ?_, ?_, hmed⟩
  · refine ⟨_, _, hsd, hse, ?_⟩
    rw [if_pos hlen, hn]
  · intro h1
    rw [hn] at h1
    constructor
    · rw [hsd, h1]
      norm_num
    · rw [hse, h1]
      norm_num
  · intro h2
    rw [hn] at h2
    rw [hsd, if_pos (by omega : 1 < (successful_times its).length)]
    rfl
  · exact ⟨pyListMin (successful_times its), hmin,
      (pyListMin_spec _ h).1, (pyListMin_spec _ h).2⟩
  · exact ⟨pyListMax (successful_times its), hmax,
      (pyListMax_spec _ h).1, (pyListMax_spec _ h).2⟩

/-- Witness for C2: the spec's scenario [100, 110, 105], all successful. -/
theorem claim_C2_statistics_summary_witness :
    (compute_statistics [⟨1, 100, true⟩, ⟨2, 110, true⟩, ⟨3, 105, true⟩]).n = 3 ∧
    (compute_statistics [⟨1, 100, true⟩, ⟨2, 110, true⟩, ⟨3, 105, true⟩]).mean = some 105 ∧
    (compute_statistics [⟨1, 100, true⟩, ⟨2, 110, true⟩, ⟨3, 105, true⟩]).stdDev = some 5 ∧
    (compute_statistics [⟨1, 100, true⟩, ⟨2, 110, true⟩, ⟨3, 105, true⟩]).standardError =
      some (5 / Real.sqrt 3) ∧
    (compute_statistics [⟨1, 100, true⟩, ⟨2, 110, true⟩, ⟨3, 105, true⟩]).min = some 100 ∧
    (compute_statistics [⟨1, 100, true⟩, ⟨2, 110, true⟩, ⟨3, 105, true⟩]).max = some 110 ∧
    (compute_statistics [⟨1, 100, true⟩, ⟨2, 110, true⟩, ⟨3, 105, true⟩]).median = some 105 := by
  have h : successful_times [⟨1, 100, true⟩, ⟨2, 110, true⟩, ⟨3, 105, true⟩] ≠ [] := by
    decide
  have hts : successful_times [⟨1, 100, true⟩, ⟨2, 110, true⟩, ⟨3, 105, true⟩] =
      [100, 110, 105] := by decide
  obtain ⟨hn, hmean, ⟨sd, se, hsd, hse, hrel⟩, _, hsd2, ⟨mn, hmn, hmnmem, hmnle⟩,
    ⟨mx, hmx, hmxmem, hmxge⟩, hmed⟩ := claim_C2_statistics_summary _ h
  have hn3 : (compute_statistics [⟨1, 100, true⟩, ⟨2, 110, true⟩, ⟨3, 105, true⟩]).n = 3 := by
    rw [hn, hts]
    rfl
  have hsd5 : (compute_statistics [⟨1, 100, true⟩, ⟨2, 110, true⟩, ⟨3, 105, true⟩]).stdDev =
      some 5 := by
    have h2 : 2 ≤ (compute_statistics [⟨1, 100, true⟩, ⟨2, 110, true⟩, ⟨3, 105, true⟩]).n := by
      rw [hn3]
      norm_num
    rw [hsd2 h2, hts]
    have hq : ((([100, 110, 105] : List ℚ).map
        (fun x => (x - pyMean [100, 110, 105]) ^ 2)).sum /
          ((([100, 110, 105] : List ℚ).length : ℚ) - 1)) = 25 := by
      norm_num [pyMean, List.map_cons, List.map_nil, List.sum_cons, List.sum_nil,
        List.length_cons]
    rw [hq, show ((25 : ℚ) : ℝ) = 5 ^ 2 by norm_num, Real.sqrt_sq (by norm_num : (0:ℝ) ≤ 5)]
  refine ⟨hn3, ?_, hsd5, ?_, ?_, ?_, ?_⟩
  · rw [hmean, hts]
    norm_num [pyMean, List.sum_cons, List.sum_nil, List.length_cons]
  · have hsdv : sd = 5 := Option.some.inj (hsd.symm.trans hsd5)
    rw [hse, hrel, hsdv, hn3]
    norm_num
  · have h100 : mn ≤ 100 := hmnle 100 (by rw [hts]; exact List.mem_cons_self _ _)
    rw [hts] at hmnmem
    rcases (by simpa using hmnmem : mn = 100 ∨ mn = 110 ∨ mn = 105) with rfl | rfl | rfl
    · exact hmn
    · norm_num at h100
    · norm_num at h100
  · have h110 : 110 ≤ mx := hmxge 110 (by rw [hts]; exact List.mem_cons_of_mem _ (List.mem_cons_self _ _))
    rw [hts] at hmxmem
    rcases (by simpa using hmxmem : mx = 100 ∨ mx = 110 ∨ mx = 105) with rfl | rfl | rfl
    · norm_num at h110
    · exact hmx
    · norm_num at h110
  · rw [hmed, hts]
    norm_num [pyMedian, List.insertionSort, List.orderedInsert, List.getD]

/-- Claim C3 counterexample: on an all-failed iteration list the recorded
reason string is "All iterations failed" (capital A), so it is not the
string "all iterations failed" the claim states. -/
theorem claim_C3_reason_string_counterexample :
    (compute_statistics [⟨1, 100, false⟩, ⟨2, 120, false⟩, ⟨3, 90, false⟩]).error =
      some "All iterations failed" ∧
    (compute_statistics [⟨1, 100, false⟩, ⟨2, 120, false⟩, ⟨3, 90, false⟩]).error ≠
      some "all iterations failed" := by
  rw [compute_statistics_all_failed (by decide)]
  exact ⟨rfl, by decide⟩

/-- Claim C3 (amended): when zero iterations succeed the summary has n = 0,
no mean, and the failure reason string "All iterations failed" (the code
capitalises the first word); and no summary ever pairs a numeric mean with
n = 0. -/
theorem claim_C3_total_failure (its : List Iteration)
    (h : successful_times its = []) :
    (compute_statistics its).n = 0 ∧ (compute_statistics its).mean = none ∧
    (compute_statistics its).error = some "All iterations failed" ∧
    ∀ its' : List Iteration,
      ((compute_statistics its').n = 0 ↔ (compute_statistics its').mean = none) := by
  refine ⟨?_, ?_, ?_, ?_⟩
  · rw [compute_statistics_all_failed h]
  · rw [compute_statistics_all_failed h]
  · rw [compute_statistics_all_failed h]
  · intro its'
    by_cases h' : successful_times its' = []
    · rw [compute_statistics_all_failed h']
      simp
    · simp only [compute_statistics_pos h']
      constructor
      · intro hn
        exact absurd hn (List.length_pos.mpr h').ne'
      · intro hm
        exact absurd hm (by simp)

/-- Witness for C3 (amended): the spec's scenario B, all iterations fail. -/
theorem claim_C3_total_failure_witness :
    (compute_statistics [⟨1, 80, false⟩, ⟨2, 95, false⟩]).n = 0 ∧
    (compute_statistics [⟨1, 80, false⟩, ⟨2, 95, false⟩]).mean = none ∧
    (compute_statistics [⟨1, 80, false⟩, ⟨2, 95, false⟩]).error =
      some "All iterations failed" := by
  obtain ⟨h1, h2, h3, _⟩ := claim_C3_total_failure [⟨1, 80, false⟩, ⟨2, 95, false⟩] (by decide)
  exact ⟨h1, h2, h3⟩

/-- Claim C9 counterexample: a single successful iteration of 0 ms gives
n = 1 and mean = 0, and the coefficient of variation is then the default 0,
not undefined. -/
theorem claim_C9_cv_defaulted_counterexample :
    (compute_statistics [⟨1, 0, true⟩]).n = 1 ∧
    (compute_statistics [⟨1, 0, true⟩]).mean = some 0 ∧
    (compute_statistics [⟨1, 0, true⟩]).cv = some 0 ∧
    (compute_statistics [⟨1, 0, true⟩]).cv ≠ none := by
  have hts : successful_times [⟨1, 0, true⟩] = [0] := by decide
  have hm : pyMean (successful_times [⟨1, 0, true⟩]) = 0 := by
    rw [hts]
    norm_num [pyMean, List.sum_cons, List.sum_nil, List.length_cons]
  have h0 : ¬ successful_times [⟨1, 0, true⟩] = [] := by decide
  refine ⟨?_, ?_, ?_, ?_⟩
  · rw [compute_statistics_pos h0]
    rw [hts]
    rfl
  · rw [compute_statistics_pos h0]
    rw [hm]
  · rw [compute_statistics_pos h0]
    have hnm : ¬ 0 < pyMean (successful_times [⟨1, 0, true⟩]) := by
      rw [hm]
      norm_num
    simp only [if_neg hnm]
  · rw [compute_statistics_pos h0]
    have hnm : ¬ 0 < pyMean (successful_times [⟨1, 0, true⟩]) := by
      rw [hm]
      norm_num
    simp only [if_neg hnm]
    simp

/-- Claim C9 (amended): for n = 1 the coefficient of variation is 0 whether
or not the mean is positive (the code defaults it to 0 when mean <= 0,
never leaving it undefined); and for n >= 1 with mean > 0 it equals
stdDev / mean * 100. -/
theorem claim_C9_cv (its : List Iteration) (h : successful_times its ≠ []) :
    ((compute_statistics its).n = 1 → (compute_statistics its).cv = some 0) ∧
    (0 < pyMean (successful_times its) →
      ∃ sd : ℝ, (compute_statistics its).stdDev = some sd ∧
        (compute_statistics its).cv =
          some (sd / (pyMean (successful_times its) : ℝ) * 100)) := by
  simp only [compute_statistics_pos h]
  constructor
  · intro hn
    by_cases hm : 0 < pyMean (successful_times its)
    · rw [if_pos hm, hn]
      norm_num
    · rw [if_neg hm]
  · intro hm
    exact ⟨_, rfl, by rw [if_pos hm]⟩

/-- Witness for C9 (amended): one successful 7 ms iteration has cv = 0. -/
theorem claim_C9_cv_witness :
    (compute_statistics [⟨1, 7, true⟩]).cv = some 0 := by
  apply (claim_C9_cv [⟨1, 7, true⟩] (by decide)).1
  simp only [compute_statistics_pos (by decide : ¬ successful_times [⟨1, 7, true⟩] = [])]
  decide

theorem pyRound_intCast (n : ℤ) : pyRound ((n : ℚ)) = n := by
  unfold pyRound
  rw [Int.floor_intCast]
  rw [if_pos (by rw [sub_self]; norm_num)]

theorem pctCell_intCast (n : ℤ) :
    pctCell ((n : ℚ)) =
      if 0 < n then "+" ++ toString n ++ "%" else toString n ++ "%" := by
  unfold pctCell
  rw [pyRound_intCast]
  by_cases h : 0 < n
  · rw [if_pos h, if_pos (by exact_mod_cast h)]
  · rw [if_neg h, if_neg (by exact_mod_cast h)]

theorem msCell_intCast (n : ℤ) (h : (n : ℚ) ≠ 0) :
    msCell (some ((n : ℚ))) = toString n ++ "ms" := by
  simp only [msCell]
  rw [if_neg h, pyRound_intCast]

theorem pyOr_some_of_ne {v : ℚ} (h : v ≠ 0) (b : Option ℚ) :
    pyOr (some v) b = some v := by
  unfold pyOr truthyQ
  simp [h]

theorem pyOr_none (b : Option ℚ) : pyOr none b = b := rfl

theorem dictGet_singleton_self (k : ConfigKey) (v : ℚ) : dictGet [(k, v)] k = some v := by
  rw [dictGet_cons, if_pos rfl]

theorem dictGet_singleton_ne {k k' : ConfigKey} (h : k ≠ k') (v : ℚ) :
    dictGet [(k, v)] k' = none := by
  rw [dictGet_cons, if_neg h]
  rfl

/-! ### Claim theorems: the Record Loader and the Aggregator -/

/-- Claim C6: a missing source location loads as the empty set; every
well-formed item of an existing location is returned and nothing else is;
one unparsable item never aborts the load (a directory with one well-formed
record and one unparsable file yields exactly the well-formed record). -/
theorem claim_C6_record_loader {α : Type} :
    load_results (none : Option (List (Option α))) = [] ∧
    (∀ (items : List (Option α)) (r : α), some r ∈ items → r ∈ load_results (some items)) ∧
    (∀ (items : List (Option α)) (r : α), r ∈ load_results (some items) → some r ∈ items) ∧
    ∀ r : α, load_results (some [some r, none]) = [r] := by
  refine ⟨rfl, ?_, ?_, fun r => rfl⟩
  · intro items r hr
    unfold load_results
    exact List.mem_filterMap.mpr ⟨some r, hr, rfl⟩
  · intro items r hr
    unfold load_results at hr
    obtain ⟨a, ha, hid⟩ := List.mem_filterMap.mp hr
    cases a with
    | none => simp at hid
    | some b =>
      have hb : b = r := by simpa using hid
      rwa [hb] at ha

/-- Witness for C6 at a concrete type and directory. -/
theorem claim_C6_record_loader_witness :
    load_results (none : Option (List (Option ℚ))) = [] ∧
    load_results (some [some (5 : ℚ), none]) = [5] := by
  have h := @claim_C6_record_loader ℚ
  exact ⟨h.1, h.2.2.2 5⟩

/-- Claim C5: a native record whose parallelism axis is the sentinel "all"
and one whose axis is the literal 0 resolve to the same max-parallelism
(CPU=all) lookup entry of the comparison table. -/
theorem claim_C5_axis_normalization (ds m : String) (seqs sites : Option Int)
    (mv : ℚ) (hmv : mv ≠ 0) :
    cpuAllCell (cli_lookup [⟨ds, m, some (Sum.inl 0), seqs, sites, some mv⟩]) ds m =
      some mv ∧
    cpuAllCell (cli_lookup [⟨ds, m, some (Sum.inr "all"), seqs, sites, some mv⟩]) ds m =
      some mv := by
  have h0 : cli_lookup [⟨ds, m, some (Sum.inl 0), seqs, sites, some mv⟩] =
      [((ds, m, "0"), mv)] := by
    unfold cli_lookup buildLookup
    rw [List.foldl_cons, List.foldl_nil,
      lookupStep_some (show CliRecord.mean ⟨ds, m, some (Sum.inl 0), seqs, sites, some mv⟩ =
        some mv from rfl) hmv,
      dictInsert_of_not_mem _ _ _ (by simp), List.nil_append]
    rfl
  have hall : cli_lookup [⟨ds, m, some (Sum.inr "all"), seqs, sites, some mv⟩] =
      [((ds, m, "all"), mv)] := by
    unfold cli_lookup buildLookup
    rw [List.foldl_cons, List.foldl_nil,
      lookupStep_some (show CliRecord.mean ⟨ds, m, some (Sum.inr "all"), seqs, sites, some mv⟩ =
        some mv from rfl) hmv,
      dictInsert_of_not_mem _ _ _ (by simp), List.nil_append]
    rfl
  constructor
  · rw [h0]
    unfold cpuAllCell
    rw [dictGet_singleton_self, pyOr_some_of_ne hmv]
  · rw [hall]
    unfold cpuAllCell
    have hne : ((ds, m, "all") : ConfigKey) ≠ (ds, m, "0") := by
      intro hk
      have h3 : ("all" : String) = "0" := congrArg (fun p : ConfigKey => p.2.2) hk
      exact absurd h3 (by decide)
    rw [dictGet_singleton_ne hne, pyOr_none, dictGet_singleton_self]

/-- Witness for C5 at a concrete dataset, method and mean. -/
theorem claim_C5_axis_normalization_witness :
    cpuAllCell (cli_lookup
        [⟨"bglobin", "slac", some (Sum.inl 0), some 4, some 7, some 250⟩]) "bglobin" "slac" =
      some 250 ∧
    cpuAllCell (cli_lookup
        [⟨"bglobin", "slac", some (Sum.inr "all"), some 4, some 7, some 250⟩]) "bglobin" "slac" =
      some 250 :=
  claim_C5_axis_normalization "bglobin" "slac" (some 4) (some 7) 250 (by norm_num)

/-- Claim C10: when records share a composite key, the lookup keeps the mean
of the record appearing last among them (no averaging, no error): after the
last record with the key — provided it carries a stored mean — the entry is
exactly that record's mean, whatever duplicates preceded it. -/
theorem claim_C10_duplicate_last_wins (l₁ l₂ : List CliRecord) (r : CliRecord)
    (m : ℚ) (hm : r.mean = some m) (h0 : m ≠ 0)
    (hl₂ : ∀ r' ∈ l₂, cliKey r' ≠ cliKey r) :
    dictGet (cli_lookup (l₁ ++ r :: l₂)) (cliKey r) = some m := by
  unfold cli_lookup buildLookup
  rw [List.foldl_append, List.foldl_cons,
    foldl_lookupStep_get_ne l₂ _ _ hl₂,
    lookupStep_some hm h0, dictGet_dictInsert_self]

/-- Witness for C10: two records with the same key and means 100 then 200
resolve to 200. -/
theorem claim_C10_duplicate_last_wins_witness :
    dictGet (cli_lookup [⟨"d1", "meme", some (Sum.inl 1), some 5, some 9, some 100⟩,
      ⟨"d1", "meme", some (Sum.inl 1), some 5, some 9, some 200⟩]) ("d1", "meme", "1") =
      some 200 := by
  have h := claim_C10_duplicate_last_wins
    [⟨"d1", "meme", some (Sum.inl 1), some 5, some 9, some 100⟩] []
    ⟨"d1", "meme", some (Sum.inl 1), some 5, some 9, some 200⟩ 200 rfl (by norm_num)
    (by intro r' hr'; simp at hr')
  exact h

/-! ### Claim theorems: overhead rendering -/

/-- Claim C8: the rendered overhead carries a leading "+" exactly when the
overhead is positive; baseline 100 / sandboxed 150 renders "+50%", baseline
100 / sandboxed 80 renders "-20%". -/
theorem claim_C8_overhead_sign (c w : ℚ) (hc : c ≠ 0) (hw : w ≠ 0) :
    (0 < overheadValue c w → overheadCell (some c) (some w) =
      "+" ++ toString (pyRound (overheadValue c w)) ++ "%") ∧
    (¬ 0 < overheadValue c w → ∀ s : String, overheadCell (some c) (some w) ≠ "+" ++ s) ∧
    overheadCell (some 100) (some 150) = "+50%" ∧
    overheadCell (some 100) (some 80) = "-20%" := by
  have hcell : overheadCell (some c) (some w) = pctCell (overheadValue c w) := by
    simp only [overheadCell]
    rw [if_pos ⟨hc, hw⟩]
  refine ⟨?_, ?_, ?_, ?_⟩
  · intro hpos
    rw [hcell]
    unfold pctCell
    rw [if_pos hpos]
  · intro hneg s
    rw [hcell]
    unfold pctCell
    rw [if_neg hneg]
    exact toString_int_nonpos_ne_plus _ (pyRound_nonpos (not_lt.mp hneg)) "%" s
  · have hov : overheadValue 100 150 = ((50 : ℤ) : ℚ) := by
      norm_num [overheadValue]
    simp only [overheadCell]
    rw [if_pos (by norm_num : (100 : ℚ) ≠ 0 ∧ (150 : ℚ) ≠ 0), hov, pctCell_intCast,
      if_pos (by norm_num : (0 : ℤ) < 50)]
    decide
  · have hov : overheadValue 100 80 = ((-20 : ℤ) : ℚ) := by
      norm_num [overheadValue]
    simp only [overheadCell]
    rw [if_pos (by norm_num : (100 : ℚ) ≠ 0 ∧ (80 : ℚ) ≠ 0), hov, pctCell_intCast,
      if_neg (by norm_num : ¬ (0 : ℤ) < -20)]
    decide

/-- Witness for C8: the spec's two sign-convention examples. -/
theorem claim_C8_overhead_sign_witness :
    overheadCell (some 100) (some 150) = "+50%" ∧
    overheadCell (some 100) (some 80) = "-20%" := by
  have h := claim_C8_overhead_sign 100 150 (by norm_num) (by norm_num)
  exact ⟨h.2.2.1, h.2.2.2⟩

/-- Claim C1 counterexample: the sandboxed record's mean is present and 0
and the native baseline mean is the nonzero 100, yet the overhead cell is
the placeholder dash and not the "-100%" the claim's formula requires — a
zero sandboxed mean is dropped when the lookup is built. -/
theorem claim_C1_zero_mean_counterexample :
    (([⟨"bglobin", "fel", some "chromium", some 10, some 20, some 0⟩] : List WasmRecord).map
      WasmRecord.mean) = [some 0] ∧
    dictGet (wasm_lookup [⟨"bglobin", "fel", some "chromium", some 10, some 20, some 0⟩])
      ("bglobin", "fel", "chromium") = none ∧
    overheadCell
      (dictGet (cli_lookup [⟨"bglobin", "fel", some (Sum.inl 1), some 10, some 20, some 100⟩])
        ("bglobin", "fel", "1"))
      (dictGet (wasm_lookup [⟨"bglobin", "fel", some "chromium", some 10, some 20, some 0⟩])
        ("bglobin", "fel", "chromium")) = "-" ∧
    pctCell (overheadValue 100 0) = "-100%" ∧
    ("-" : String) ≠ "-100%" := by
  refine ⟨rfl, by decide, ?_, ?_, by decide⟩
  · rw [show dictGet (wasm_lookup [⟨"bglobin", "fel", some "chromium", some 10, some 20,
        some 0⟩]) ("bglobin", "fel", "chromium") = none from by decide]
    cases dictGet (cli_lookup [⟨"bglobin", "fel", some (Sum.inl 1), some 10, some 20,
      some 100⟩]) ("bglobin", "fel", "1") <;> rfl
  · have hov : overheadValue 100 0 = ((-100 : ℤ) : ℚ) := by
      norm_num [overheadValue]
    rw [hov, pctCell_intCast, if_neg (by norm_num : ¬ (0 : ℤ) < -100)]
    decide

/-- Claim C1 (amended): a lookup never stores a zero mean (zero and missing
means are excluded when it is built), and the overhead cell is the
formatted overhead percentage exactly when both the baseline and the
sandboxed default-runtime lookup entries are present; otherwise it is the
placeholder dash, never a defaulted zero. -/
theorem claim_C1_overhead_rendering (cli : List CliRecord) (wasm : List WasmRecord)
    (ds m : String) :
    (∀ q, dictGet (cli_lookup cli) (ds, m, "1") = some q → q ≠ 0) ∧
    (∀ q, dictGet (wasm_lookup wasm) (ds, m, "chromium") = some q → q ≠ 0) ∧
    ((∃ c w, dictGet (cli_lookup cli) (ds, m, "1") = some c ∧
        dictGet (wasm_lookup wasm) (ds, m, "chromium") = some w ∧
        overheadCell (dictGet (cli_lookup cli) (ds, m, "1"))
          (dictGet (wasm_lookup wasm) (ds, m, "chromium")) =
            pctCell (overheadValue c w)) ∨
      (overheadCell (dictGet (cli_lookup cli) (ds, m, "1"))
          (dictGet (wasm_lookup wasm) (ds, m, "chromium")) = "-" ∧
        (dictGet (cli_lookup cli) (ds, m, "1") = none ∨
          dictGet (wasm_lookup wasm) (ds, m, "chromium") = none))) := by
  have hcnz : ∀ q, dictGet (cli_lookup cli) (ds, m, "1") = some q → q ≠ 0 := by
    intro q hq
    exact values_buildLookup_ne_zero cliKey CliRecord.mean cli _ (mem_of_dictGet_eq_some hq)
  have hwnz : ∀ q, dictGet (wasm_lookup wasm) (ds, m, "chromium") = some q → q ≠ 0 := by
    intro q hq
    exact values_buildLookup_ne_zero wasmKey WasmRecord.mean wasm _ (mem_of_dictGet_eq_some hq)
  refine ⟨hcnz, hwnz, ?_⟩
  cases hc : dictGet (cli_lookup cli) (ds, m, "1") with
  | none =>
    refine Or.inr ⟨?_, Or.inl rfl⟩
    cases dictGet (wasm_lookup wasm) (ds, m, "chromium") <;> rfl
  | some c =>
    cases hw : dictGet (wasm_lookup wasm) (ds, m, "chromium") with
    | none => exact Or.inr ⟨rfl, Or.inr rfl⟩
    | some w =>
      refine Or.inl ⟨c, w, rfl, rfl, ?_⟩
      simp only [overheadCell]
      rw [if_pos ⟨hcnz c hc, hwnz w hw⟩]

/-- Witness for C1 (amended): present nonzero baseline 100 and sandboxed
mean 130 render "+30%". -/
theorem claim_C1_overhead_rendering_witness :
    overheadCell
      (dictGet (cli_lookup [⟨"cd2", "fel", some (Sum.inl 1), some 8, some 16, some 100⟩])
        ("cd2", "fel", "1"))
      (dictGet (wasm_lookup [⟨"cd2", "fel", some "chromium", some 8, some 16, some 130⟩])
        ("cd2", "fel", "chromium")) = "+30%" := by
  have h := (claim_C1_overhead_rendering
    [⟨"cd2", "fel", some (Sum.inl 1), some 8, some 16, some 100⟩]
    [⟨"cd2", "fel", some "chromium", some 8, some 16, some 130⟩] "cd2" "fel").2.2
  have hc : dictGet (cli_lookup [⟨"cd2", "fel", some (Sum.inl 1), some 8, some 16, some 100⟩])
      ("cd2", "fel", "1") = some 100 := by decide
  have hw : dictGet (wasm_lookup [⟨"cd2", "fel", some "chromium", some 8, some 16, some 130⟩])
      ("cd2", "fel", "chromium") = some 130 := by decide
  rcases h with ⟨c, w, hc', hw', heq⟩ | ⟨hdash, hnone⟩
  · have hc100 : c = 100 := Option.some.inj (hc'.symm.trans hc)
    have hw130 : w = 130 := Option.some.inj (hw'.symm.trans hw)
    rw [heq, hc100, hw130]
    have hov : overheadValue 100 130 = ((30 : ℤ) : ℚ) := by
      norm_num [overheadValue]
    rw [hov, pctCell_intCast, if_pos (by norm_num : (0 : ℤ) < 30)]
    decide
  · rcases hnone with h1 | h2
    · rw [hc] at h1
      exact absurd h1 (by simp)
    · rw [hw] at h2
      exact absurd h2 (by simp)

/-- The summary statistics of a one-entry native lookup joined with a
one-entry sandboxed lookup whose dataset and method match: one overhead,
repeated as average, min and max. -/
theorem summaryStats_single (k2 : ConfigKey) (c w : ℚ) (hc : c ≠ 0) (hw : w ≠ 0) :
    summaryStats [((k2.1, k2.2.1, "1"), c)] [(k2, w)] =
      some (overheadValue c w, overheadValue c w, overheadValue c w) := by
  unfold summaryStats
  rw [if_neg (by simp)]
  have hov : summaryOverheads [((k2.1, k2.2.1, "1"), c)] [(k2, w)] = [overheadValue c w] := by
    unfold summaryOverheads
    simp only [List.filterMap_cons, List.filterMap_nil]
    rw [@summaryEntry_some_pos [((k2.1, k2.2.1, "1"), c)] (k2, w) c
      (dictGet_singleton_self _ _) hc hw]
  rw [hov, if_neg (by simp)]
  have h1 : ([overheadValue c w] : List ℚ).sum /
      ((([overheadValue c w] : List ℚ).length : ℕ) : ℚ) = overheadValue c w := by
    simp
  rw [h1]
  rfl

/-- Claim C4 counterexample: with one native baseline record and one
sandboxed record stored under the "firefox" runtime, the only comparison
row ("bglobin", "fel") renders its overhead as the placeholder dash, yet
the cross-pair summary statistics are reported as +50 percent — the
summary loop joins every sandboxed lookup entry, not only the rows whose
overhead is defined. -/
theorem claim_C4_firefox_counterexample :
    sortedSet (([⟨"bglobin", "fel", some (Sum.inl 1), some 12, some 20, some 100⟩] :
        List CliRecord).map (fun r => r.dataset) ++
      ([⟨"bglobin", "fel", some "firefox", some 12, some 20, some 150⟩] :
        List WasmRecord).map (fun r => r.dataset)) = ["bglobin"] ∧
    sortedSet (([⟨"bglobin", "fel", some (Sum.inl 1), some 12, some 20, some 100⟩] :
        List CliRecord).map (fun r => r.method) ++
      ([⟨"bglobin", "fel", some "firefox", some 12, some 20, some 150⟩] :
        List WasmRecord).map (fun r => r.method)) = ["fel"] ∧
    overheadCell
      (dictGet (cli_lookup [⟨"bglobin", "fel", some (Sum.inl 1), some 12, some 20, some 100⟩])
        ("bglobin", "fel", "1"))
      (dictGet (wasm_lookup [⟨"bglobin", "fel", some "firefox", some 12, some 20, some 150⟩])
        ("bglobin", "fel", "chromium")) = "-" ∧
    (write_markdown [⟨"bglobin", "fel", some (Sum.inl 1), some 12, some 20, some 100⟩]
      [⟨"bglobin", "fel", some "firefox", some 12, some 20, some 150⟩]).summary =
        some (50, 50, 50) := by
  refine ⟨by decide, by decide, by decide, ?_⟩
  have hcl : cli_lookup [⟨"bglobin", "fel", some (Sum.inl 1), some 12, some 20, some 100⟩] =
      [(("bglobin", "fel", "1"), 100)] := by decide
  have hwl : wasm_lookup [⟨"bglobin", "fel", some "firefox", some 12, some 20, some 150⟩] =
      [(("bglobin", "fel", "firefox"), 150)] := by decide
  have hsum : (write_markdown [⟨"bglobin", "fel", some (Sum.inl 1), some 12, some 20, some 100⟩]
      [⟨"bglobin", "fel", some "firefox", some 12, some 20, some 150⟩]).summary =
        summaryStats
          (cli_lookup [⟨"bglobin", "fel", some (Sum.inl 1), some 12, some 20, some 100⟩])
          (wasm_lookup [⟨"bglobin", "fel", some "firefox", some 12, some 20, some 150⟩]) := rfl
  rw [hsum, hcl, hwl,
    summaryStats_single ("bglobin", "fel", "firefox") 100 150 (by norm_num) (by norm_num)]
  have hov : overheadValue 100 150 = 50 := by
    norm_num [overheadValue]
  rw [hov]

/-- Claim C4 (amended): the cross-pair summary is computed over the joins
of every sandboxed lookup entry — whatever its runtime axis — with the
native parallelism-1 baseline: an overhead is contributed exactly by
entries whose baseline is present and nonzero and whose own mean is
nonzero; entries with a missing baseline contribute nothing; when nothing
contributes (or either lookup is empty) the summary is omitted entirely
rather than reported as zero; and a reported (average, min, max) is the
average and the exact bounds of the contributed overheads. -/
theorem claim_C4_summary_statistics (cli : List CliRecord) (wasm : List WasmRecord) :
    ((write_markdown cli wasm).summary = none ↔
      (wasm_lookup wasm = [] ∨ cli_lookup cli = [] ∨
        summaryOverheads (cli_lookup cli) (wasm_lookup wasm) = [])) ∧
    (∀ o, o ∈ summaryOverheads (cli_lookup cli) (wasm_lookup wasm) ↔
      ∃ p ∈ wasm_lookup wasm, ∃ c,
        dictGet (cli_lookup cli) (p.1.1, p.1.2.1, "1") = some c ∧
        c ≠ 0 ∧ p.2 ≠ 0 ∧ o = overheadValue c p.2) ∧
    (∀ a mn mx, (write_markdown cli wasm).summary = some (a, mn, mx) →
      a = (summaryOverheads (cli_lookup cli) (wasm_lookup wasm)).sum /
        ((summaryOverheads (cli_lookup cli) (wasm_lookup wasm)).length : ℚ) ∧
      mn ∈ summaryOverheads (cli_lookup cli) (wasm_lookup wasm) ∧
      mx ∈ summaryOverheads (cli_lookup cli) (wasm_lookup wasm) ∧
      ∀ b ∈ summaryOverheads (cli_lookup cli) (wasm_lookup wasm), mn ≤ b ∧ b ≤ mx) := by
  have hsum : (write_markdown cli wasm).summary =
      summaryStats (cli_lookup cli) (wasm_lookup wasm) := rfl
  refine ⟨?_, ?_, ?_⟩
  · rw [hsum]
    unfold summaryStats
    by_cases h1 : wasm_lookup wasm = [] ∨ cli_lookup cli = []
    · rw [if_pos h1]
      refine ⟨fun _ => ?_, fun _ => rfl⟩
      rcases h1 with h | h
      · exact Or.inl h
      · exact Or.inr (Or.inl h)
    · rw [if_neg h1]
      by_cases h2 : summaryOverheads (cli_lookup cli) (wasm_lookup wasm) = []
      · rw [if_pos h2]
        exact ⟨fun _ => Or.inr (Or.inr h2), fun _ => rfl⟩
      · rw [if_neg h2]
        constructor
        · intro hx
          exact absurd hx (by simp)
        · intro hx
          rcases hx with h | h | h
          · exact absurd (Or.inl h) h1
          · exact absurd (Or.inr h) h1
          · exact absurd h h2
  · intro o
    unfold summaryOverheads
    rw [List.mem_filterMap]
    constructor
    · rintro ⟨p, hp, hfp⟩
      cases hd : dictGet (cli_lookup cli) (p.1.1, p.1.2.1, "1") with
      | none =>
        rw [summaryEntry_none hd] at hfp
        exact absurd hfp (by simp)
      | some c =>
        by_cases hcond : c ≠ 0 ∧ p.2 ≠ 0
        · rw [summaryEntry_some_pos hd hcond.1 hcond.2] at hfp
          exact ⟨p, hp, c, hd, hcond.1, hcond.2, (Option.some.inj hfp).symm⟩
        · rw [summaryEntry_some_neg hd hcond] at hfp
          exact absurd hfp (by simp)
    · rintro ⟨p, hp, c, hd, hc0, hp0, ho⟩
      refine ⟨p, hp, ?_⟩
      rw [summaryEntry_some_pos hd hc0 hp0, ho]
  · intro a mn mx hsome
    rw [hsum] at hsome
    unfold summaryStats at hsome
    split_ifs at hsome with h1 h2
    · have heq := Option.some.inj hsome
      have ha : (summaryOverheads (cli_lookup cli) (wasm_lookup wasm)).sum /
          ((summaryOverheads (cli_lookup cli) (wasm_lookup wasm)).length : ℚ) = a :=
        congrArg Prod.fst heq
      have hmn : pyListMin (summaryOverheads (cli_lookup cli) (wasm_lookup wasm)) = mn :=
        congrArg (fun p => p.2.1) heq
      have hmx : pyListMax (summaryOverheads (cli_lookup cli) (wasm_lookup wasm)) = mx :=
        congrArg (fun p => p.2.2) heq
      obtain ⟨hmnmem, hmnle⟩ := pyListMin_spec _ h2
      obtain ⟨hmxmem, hmxge⟩ := pyListMax_spec _ h2
      rw [hmn] at hmnmem hmnle
      rw [hmx] at hmxmem hmxge
      exact ⟨ha.symm, hmnmem, hmxmem, fun b hb => ⟨hmnle b hb, hmxge b hb⟩⟩

/-- Witness for C4 (amended): a chromium entry with baseline 100 and
sandboxed mean 130 contributes the single overhead 30, reported as the
summary (30, 30, 30). -/
theorem claim_C4_summary_statistics_witness :
    (write_markdown [⟨"cw4", "fel", some (Sum.inl 1), some 6, some 6, some 100⟩]
      [⟨"cw4", "fel", some "chromium", some 6, some 6, some 130⟩]).summary =
        some (30, 30, 30) ∧
    (30 : ℚ) ∈ summaryOverheads
      (cli_lookup [⟨"cw4", "fel", some (Sum.inl 1), some 6, some 6, some 100⟩])
      (wasm_lookup [⟨"cw4", "fel", some "chromium", some 6, some 6, some 130⟩]) := by
  have hcl : cli_lookup [⟨"cw4", "fel", some (Sum.inl 1), some 6, some 6, some 100⟩] =
      [(("cw4", "fel", "1"), 100)] := by decide
  have hwl : wasm_lookup [⟨"cw4", "fel", some "chromium", some 6, some 6, some 130⟩] =
      [(("cw4", "fel", "chromium"), 130)] := by decide
  have hs : (write_markdown [⟨"cw4", "fel", some (Sum.inl 1), some 6, some 6, some 100⟩]
      [⟨"cw4", "fel", some "chromium", some 6, some 6, some 130⟩]).summary =
        some (30, 30, 30) := by
    have hsum : (write_markdown [⟨"cw4", "fel", some (Sum.inl 1), some 6, some 6, some 100⟩]
        [⟨"cw4", "fel", some "chromium", some 6, some 6, some 130⟩]).summary =
          summaryStats
            (cli_lookup [⟨"cw4", "fel", some (Sum.inl 1), some 6, some 6, some 100⟩])
            (wasm_lookup [⟨"cw4", "fel", some "chromium", some 6, some 6, some 130⟩]) := rfl
    rw [hsum, hcl, hwl,
      summaryStats_single ("cw4", "fel", "chromium") 100 130 (by norm_num) (by norm_num)]
    have hov : overheadValue 100 130 = 30 := by
      norm_num [overheadValue]
    rw [hov]
  refine ⟨hs, ?_⟩
  exact ((claim_C4_summary_statistics
    [⟨"cw4", "fel", some (Sum.inl 1), some 6, some 6, some 100⟩]
    [⟨"cw4", "fel", some "chromium", some 6, some 6, some 130⟩]).2.2 30 30 30 hs).2.1

theorem write_markdown_summary (cli : List CliRecord) (wasm : List WasmRecord) :
    (write_markdown cli wasm).summary =
      summaryStats (cli_lookup cli) (wasm_lookup wasm) := rfl

/-! ### Claim theorems: order independence -/

/-- Claim C7 counterexample: two native records share the composite key
("d7", "fel", "1") with means 100 and 200; swapping their discovery order
changes the retained baseline (the last record wins) and with it the
report's summary: the overhead of the sandboxed mean 150 is computed
against 100 in one order and against 200 in the other. -/
theorem claim_C7_order_counterexample :
    ([⟨"d7", "fel", some (Sum.inl 1), some 3, some 4, some 200⟩,
      ⟨"d7", "fel", some (Sum.inl 1), some 3, some 4, some 100⟩] : List CliRecord).Perm
      [⟨"d7", "fel", some (Sum.inl 1), some 3, some 4, some 100⟩,
        ⟨"d7", "fel", some (Sum.inl 1), some 3, some 4, some 200⟩] ∧
    write_markdown
        [⟨"d7", "fel", some (Sum.inl 1), some 3, some 4, some 200⟩,
          ⟨"d7", "fel", some (Sum.inl 1), some 3, some 4, some 100⟩]
        [⟨"d7", "fel", some "chromium", some 3, some 4, some 150⟩] ≠
      write_markdown
        [⟨"d7", "fel", some (Sum.inl 1), some 3, some 4, some 100⟩,
          ⟨"d7", "fel", some (Sum.inl 1), some 3, some 4, some 200⟩]
        [⟨"d7", "fel", some "chromium", some 3, some 4, some 150⟩] := by
  constructor
  · exact List.Perm.swap _ _ _
  · intro heq
    have hwlv : wasm_lookup [⟨"d7", "fel", some "chromium", some 3, some 4, some 150⟩] =
        [(("d7", "fel", "chromium"), 150)] := by decide
    have hA : (write_markdown
        [⟨"d7", "fel", some (Sum.inl 1), some 3, some 4, some 200⟩,
          ⟨"d7", "fel", some (Sum.inl 1), some 3, some 4, some 100⟩]
        [⟨"d7", "fel", some "chromium", some 3, some 4, some 150⟩]).summary =
          some (overheadValue 100 150, overheadValue 100 150, overheadValue 100 150) := by
      have hcl : cli_lookup [⟨"d7", "fel", some (Sum.inl 1), some 3, some 4, some 200⟩,
          ⟨"d7", "fel", some (Sum.inl 1), some 3, some 4, some 100⟩] =
          [(("d7", "fel", "1"), 100)] := by decide
      rw [write_markdown_summary, hcl, hwlv]
      exact summaryStats_single ("d7", "fel", "chromium") 100 150 (by norm_num) (by norm_num)
    have hB : (write_markdown
        [⟨"d7", "fel", some (Sum.inl 1), some 3, some 4, some 100⟩,
          ⟨"d7", "fel", some (Sum.inl 1), some 3, some 4, some 200⟩]
        [⟨"d7", "fel", some "chromium", some 3, some 4, some 150⟩]).summary =
          some (overheadValue 200 150, overheadValue 200 150, overheadValue 200 150) := by
      have hcl : cli_lookup [⟨"d7", "fel", some (Sum.inl 1), some 3, some 4, some 100⟩,
          ⟨"d7", "fel", some (Sum.inl 1), some 3, some 4, some 200⟩] =
          [(("d7", "fel", "1"), 200)] := by decide
      rw [write_markdown_summary, hcl, hwlv]
      exact summaryStats_single ("d7", "fel", "chromium") 200 150 (by norm_num) (by norm_num)
    have hs := congrArg Report.summary heq
    rw [hA, hB] at hs
    have h50 : overheadValue 100 150 = overheadValue 200 150 :=
      congrArg Prod.fst (Option.some.inj hs)
    norm_num [overheadValue] at h50

/-- Claim C7 (amended): when the composite keys are pairwise distinct
within each platform's record set and records of the same dataset agree on
the problem-size metadata, permuting the discovery order of the native and
the sandboxed records leaves the rendered comparison report — counts,
sections and summary; the generation timestamp is outside the model —
unchanged. -/
theorem claim_C7_order_independence (cli cli' : List CliRecord)
    (wasm wasm' : List WasmRecord)
    (hc : cli'.Perm cli) (hw : wasm'.Perm wasm)
    (hkc : (cli.map cliKey).Nodup) (hkw : (wasm.map wasmKey).Nodup)
    (hmeta : ∀ p ∈ metas cli wasm, ∀ q ∈ metas cli wasm, p.1 = q.1 → p.2 = q.2) :
    write_markdown cli' wasm' = write_markdown cli wasm := by
  have hkc' : (cli'.map cliKey).Nodup := ((hc.map cliKey).nodup_iff).mpr hkc
  have hkw' : (wasm'.map wasmKey).Nodup := ((hw.map wasmKey).nodup_iff).mpr hkw
  have hcl : (cli_lookup cli').Perm (cli_lookup cli) := buildLookup_perm hc hkc'
  have hwl : (wasm_lookup wasm').Perm (wasm_lookup wasm) := buildLookup_perm hw hkw'
  have hgetc : ∀ k, dictGet (cli_lookup cli') k = dictGet (cli_lookup cli) k :=
    fun k => dictGet_perm hcl (keys_nodup_buildLookup _ _ _) k
  have hgetw : ∀ k, dictGet (wasm_lookup wasm') k = dictGet (wasm_lookup wasm) k :=
    fun k => dictGet_perm hwl (keys_nodup_buildLookup _ _ _) k
  have hms : (metas cli' wasm').Perm (metas cli wasm) :=
    (hc.map _).append (hw.map _)
  have hseq : ∀ d, seqSites (metas cli' wasm') d = seqSites (metas cli wasm) d :=
    fun d => (seqSites_perm hms.symm hmeta d).symm
  have hds : sortedSet (cli'.map (fun r => r.dataset) ++ wasm'.map (fun r => r.dataset)) =
      sortedSet (cli.map (fun r => r.dataset) ++ wasm.map (fun r => r.dataset)) :=
    sortedSet_perm ((hc.map _).append (hw.map _))
  have hmeths : sortedSet (cli'.map (fun r => r.method) ++ wasm'.map (fun r => r.method)) =
      sortedSet (cli.map (fun r => r.method) ++ wasm.map (fun r => r.method)) :=
    sortedSet_perm ((hc.map _).append (hw.map _))
  have hsumm : summaryStats (cli_lookup cli') (wasm_lookup wasm') =
      summaryStats (cli_lookup cli) (wasm_lookup wasm) :=
    summaryStats_congr hgetc hcl hwl
  simp only [write_markdown, Report.mk.injEq]
  refine ⟨hc.length_eq, hw.length_eq, ?_, hsumm⟩
  simp only [hds, hmeths]
  apply List.map_congr_left
  intro m _
  refine congrArg (Prod.mk m) ?_
  apply List.map_congr_left
  intro d _
  exact mkRow_congr hgetc hgetw hseq d m

/-- Witness for C7 (amended): swapping two distinct-keyed native records
leaves the report unchanged. -/
theorem claim_C7_order_independence_witness :
    write_markdown
        [⟨"w7", "fel", some (Sum.inl 4), some 2, some 3, some 90⟩,
          ⟨"w7", "fel", some (Sum.inl 1), some 2, some 3, some 120⟩]
        [⟨"w7", "fel", some "chromium", some 2, some 3, some 150⟩] =
      write_markdown
        [⟨"w7", "fel", some (Sum.inl 1), some 2, some 3, some 120⟩,
          ⟨"w7", "fel", some (Sum.inl 4), some 2, some 3, some 90⟩]
        [⟨"w7", "fel", some "chromium", some 2, some 3, some 150⟩] :=
  claim_C7_order_independence _ _ _ _ (List.Perm.swap _ _ _) (List.Perm.refl _)
    (by decide) (by decide) (by decide)
